import Mathlib

/-!
Verification development for the asynchronous asset-loading and material-binding
core of the `harmony` rendering engine.

The definitions below are a shallow embedding of the Rust sources:

* `src/assets/material_manager.rs` — `MaterialManager::{new, insert, get}` and the
  resolution tasks they spawn; embedded as the caller-side state transformers
  `materialManagerGet` / `materialManagerInsert` over `MgrState`, plus the pure
  task bodies `runGetTask` / `runInsertTask` that record their cache writes and
  an event trace.
* `src/graphics/material/new_material.rs` — `NewMaterialHandle` (the raw material
  description), its derived `PartialEq` (`nmhEq`), its manual `Hash`
  implementation (`hashTrace`), `NewMaterialData::create_bind_group`, and the
  RON serialize/parse round trip.

Machine floats (`f32`) appear only as carried data, never as arithmetic: they are
embedded as their 32-bit patterns (`FP32 := Nat`), with IEEE-754 equality
(`f32Eq`) and `f32::to_bits` being the identity on the pattern.

Components of the repository that the Rust sources under verification only
reference (the `file_manager` module holding `AssetHandle`/`AssetCache`, and the
external RON serializer) are modelled from the specification; each such
definition carries a doc comment starting `Modelled from the spec:`.
-/

/-! ## Error taxonomy and cache model -/

/-- `std::io::ErrorKind`, restricted to the distinction the source draws:
`NotFound` versus everything else (represented by a numeric code). -/
inductive IOErrorKind where
  | notFound
  | otherKind (code : Nat)
deriving DecidableEq, Repr

/-- A `std::io::Error`: its kind plus an opaque payload standing for the rest of
the error value, so that `AssetError::OtherError(error)` visibly carries the
underlying error. -/
structure IOError where
  kind : IOErrorKind
  payload : Nat
deriving DecidableEq, Repr

/-- `AssetError` from the `file_manager` module, as observed at the use sites in
`material_manager.rs` (`FileNotFound`, `InvalidData`, `OtherError(e)`). -/
inductive AssetError where
  | FileNotFound
  | InvalidData
  | OtherError (e : IOError)
deriving DecidableEq, Repr

/-- A cache (`dashmap::DashMap` keyed by path) as an association list; the most
recent insert for a key shadows older ones, matching `DashMap::insert`'s
replace semantics observationally. -/
def lookupA {V : Type} : List (String × V) → String → Option V
  | [], _ => none
  | (k, v) :: rest, key => if k = key then some v else lookupA rest key

/-- `DashMap::insert`: insert or replace the entry for `k`. -/
def insertA {V : Type} (m : List (String × V)) (k : String) (v : V) :
    List (String × V) :=
  (k, v) :: m

/-- `DashMap::contains_key`. -/
def containsA {V : Type} (m : List (String × V)) (k : String) : Bool :=
  (lookupA m k).isSome

@[simp] theorem lookupA_insertA_self {V : Type} (m : List (String × V)) (k : String) (v : V) :
    lookupA (insertA m k v) k = some v := by
  simp [insertA, lookupA]

/-! ## Asset handle and polling (modelled from the spec) -/

/-- The handle's poll result (§4.2 of the spec):
`Pending` (no entry yet), `Ready(value)`, `Failed(error)`. -/
inductive HandleState (V : Type) where
  | Pending
  | Ready (v : V)
  | Failed (e : AssetError)
deriving DecidableEq, Repr

/-- `AssetHandle`, as constructed in `material_manager.rs`:
`AssetHandle::new(path, cache)` stores the identifier (`handle_id`); the cache
reference is passed separately to `pollHandle` below. -/
structure AssetHandleM where
  handle_id : String
deriving DecidableEq, Repr

/-- Modelled from the spec: `file_manager.rs` (the `AssetHandle` poll
implementation) is not among the sources. Per §4.2, `poll()` re-reads the shared
cache: no entry yields `Pending`, a success entry yields `Ready(value)`, a
failure entry yields `Failed(error)`. The handle itself never blocks and holds
no value. -/
def pollHandle {V : Type} (h : AssetHandleM) (cache : List (String × Except AssetError V)) :
    HandleState V :=
  match lookupA cache h.handle_id with
  | none => HandleState.Pending
  | some (Except.ok v) => HandleState.Ready v
  | some (Except.error e) => HandleState.Failed e

/-! ## The generated identifier of `MaterialManager::insert`

`insert` builds its identifier as
`PathBuf::new().join(uuid::Builder::nil().set_version(uuid::Version::Random).build().to_string())`.
The `uuid` crate's `Builder::nil()` is the all-zero byte array;
`set_version(v)` sets byte 6 to `(bytes[6] & 0x0F) | ((v as u8) << 4)` with
`Version::Random = 4`; `to_string()` is the lowercase hyphenated form. -/

/-- `uuid::Builder::nil()`: sixteen zero bytes. -/
def uuidNilBytes : List Nat := List.replicate 16 0

/-- `Builder::set_version`: byte 6 becomes `(b6 & 0x0F) | (v << 4)`; written as a
sum because the low nibble of `v <<< 4` is zero. -/
def setVersionBytes (bs : List Nat) (v : Nat) : List Nat :=
  bs.set 6 ((bs.getD 6 0) % 16 + (v % 16) * 16)

/-- Lowercase hex digit. -/
def hexChar (n : Nat) : Char :=
  if n < 10 then Char.ofNat (48 + n) else Char.ofNat (87 + n)

/-- Two lowercase hex digits of a byte. -/
def byteHex (b : Nat) : List Char :=
  [hexChar (b / 16 % 16), hexChar (b % 16)]

/-- `Uuid::to_string`: 4-2-2-2-6 byte groups, hyphen separated, lowercase hex. -/
def uuidToString (bs : List Nat) : String :=
  let hx : List Nat → List Char := fun l => (l.map byteHex).flatten
  String.mk (hx (bs.take 4) ++ ['-'] ++ hx ((bs.drop 4).take 2) ++ ['-']
    ++ hx ((bs.drop 6).take 2) ++ ['-'] ++ hx ((bs.drop 8).take 2) ++ ['-']
    ++ hx (bs.drop 10))

/-- The identifier generated by `MaterialManager::insert`: it depends on nothing
(the builder starts from the nil uuid and only sets the version nibble), so it
is one fixed string. -/
def insertGeneratedId : String :=
  uuidToString (setVersionBytes uuidNilBytes 4)

/-! ## Caller-side `MaterialManager` operations -/

/-- The manager-visible state: the material cache plus the list of identifiers
for which a resolution task has been spawned through `pool.spawn_ok` (each
`get`-spawned task performs exactly one `async_std::fs::read` of its path, so a
duplicate entry means a duplicate file read). -/
structure MgrState (B : Type) where
  material_cache : List (String × Except AssetError B)
  spawned_loads : List String
  spawned_inserts : List String
deriving Repr

/-- The caller-side body of `MaterialManager::get` (lines 71–140): build the
handle from the path, and iff the material cache has no entry for the path,
spawn a resolution task. Returns the new state and the handle. -/
def materialManagerGet {B : Type} (s : MgrState B) (path : String) :
    MgrState B × AssetHandleM :=
  let handle : AssetHandleM := { handle_id := path }
  if containsA s.material_cache path then
    (s, handle)
  else
    ({ s with spawned_loads := s.spawned_loads ++ [path] }, handle)

/-- The caller-side body of `MaterialManager::insert` (lines 37–69): generate
the identifier, build the handle, and unconditionally spawn the insert task.
Returns the new state and the handle. -/
def materialManagerInsert {B : Type} (s : MgrState B) :
    MgrState B × AssetHandleM :=
  let handle : AssetHandleM := { handle_id := insertGeneratedId }
  ({ s with spawned_inserts := s.spawned_inserts ++ [insertGeneratedId] }, handle)

/-- The empty manager state (`MaterialManager::new` creates both caches empty
and spawns nothing). -/
def emptyMgrState (B : Type) : MgrState B :=
  { material_cache := [], spawned_loads := [], spawned_inserts := [] }

/-! ## The resolution tasks

The async blocks spawned by `get` and `insert` are straight-line code with
sequential awaits; they are embedded as pure functions of their inputs. The
generic material type `T` of `MaterialManager<T>` and its collaborators
(`T::try_from`, `Material::load_textures`, `Material::create_material`,
`TextureManager::get_async`, `BindMaterial::create_bindgroup`) become the
fields of a `MaterialImpl`. Each task returns the cache writes it performs and
the ordered trace of its observable steps. -/

/-- One observable step of a resolution task, in program order. -/
inductive TaskEvent where
  | readFile (path : String)
  | parseBytes
  | writeRonCache
  | resolveTexture (path : String)
  | buildMaterial
  | buildBindGroup
  | writeMaterialCache
deriving DecidableEq, Repr

/-- The collaborators of `MaterialManager<T>`:
`tryFrom` is `T::try_from((path, data))` (its `Err` case carries nothing the
task uses, so it is an `Option`); `load_textures` and `create_material` come
from the `Material` trait; `resolveTexture` is `TextureManager::get_async`
(which always hands back a texture handle); `create_bindgroup` is
`BindMaterial::create_bindgroup` (a mutation of the material, embedded as a
transform). -/
structure MaterialImpl (Mat BindMat Tex : Type) where
  tryFrom : String → List Nat → Option Mat
  load_textures : Mat → List String
  create_material : Mat → List Tex → BindMat
  resolveTexture : String → Tex
  create_bindgroup : BindMat → BindMat

/-- What a resolution task did: its (at most one) description-cache write, the
value of its single material-cache write, and the ordered event trace. -/
structure TaskOut (Mat BindMat : Type) where
  ronWrite : Option (Except AssetError Mat)
  result : Except AssetError BindMat
  events : List TaskEvent
deriving Repr

/-- The async block spawned by `MaterialManager::get` (lines 85–136), as a
function of the file-read outcome `ronFile`:
read; on `Ok(data)` parse via `T::try_from`; on parse success store the parsed
description in the ron cache, resolve each declared texture in order, build the
material, build its bind group; on parse failure store `InvalidData` in the ron
cache; on read error map `NotFound` to `FileNotFound` and anything else to
`OtherError(error)`. In every branch the final step is the single
material-cache insert of `result`. -/
def runGetTask {Mat BindMat Tex : Type} (impl : MaterialImpl Mat BindMat Tex)
    (path : String) (ronFile : Except IOError (List Nat)) : TaskOut Mat BindMat :=
  match ronFile with
  | Except.ok data =>
    match impl.tryFrom path data with
    | some f =>
      let texture_paths := impl.load_textures f
      let textures := texture_paths.map impl.resolveTexture
      let material := impl.create_material f textures
      let material2 := impl.create_bindgroup material
      { ronWrite := some (Except.ok f),
        result := Except.ok material2,
        events := [TaskEvent.readFile path, TaskEvent.parseBytes, TaskEvent.writeRonCache]
          ++ texture_paths.map TaskEvent.resolveTexture
          ++ [TaskEvent.buildMaterial, TaskEvent.buildBindGroup]
          ++ [TaskEvent.writeMaterialCache] }
    | none =>
      { ronWrite := some (Except.error AssetError.InvalidData),
        result := Except.error AssetError.InvalidData,
        events := [TaskEvent.readFile path, TaskEvent.parseBytes, TaskEvent.writeRonCache]
          ++ [TaskEvent.writeMaterialCache] }
  | Except.error error =>
    { ronWrite := none,
      result := match error.kind with
        | IOErrorKind.notFound => Except.error AssetError.FileNotFound
        | _ => Except.error (AssetError.OtherError error),
      events := [TaskEvent.readFile path] ++ [TaskEvent.writeMaterialCache] }

/-- The async block spawned by `MaterialManager::insert` (lines 48–66): store
the in-memory description in the ron cache (success), resolve each declared
texture in order, build the material, and insert it (success) into the material
cache. No file read, no parse, no bind-group construction, no failure branch. -/
def runInsertTask {Mat BindMat Tex : Type} (impl : MaterialImpl Mat BindMat Tex)
    (material : Mat) : TaskOut Mat BindMat :=
  let texture_paths := impl.load_textures material
  { ronWrite := some (Except.ok material),
    result := Except.ok (impl.create_material material (texture_paths.map impl.resolveTexture)),
    events := [TaskEvent.writeRonCache]
      ++ texture_paths.map TaskEvent.resolveTexture
      ++ [TaskEvent.buildMaterial]
      ++ [TaskEvent.writeMaterialCache] }

/-- The stages named by the ordering guarantee of spec §5 (the description-cache
write is not one of them). -/
def listedStage : TaskEvent → Bool
  | TaskEvent.readFile _ => true
  | TaskEvent.parseBytes => true
  | TaskEvent.writeRonCache => false
  | TaskEvent.resolveTexture _ => true
  | TaskEvent.buildMaterial => true
  | TaskEvent.buildBindGroup => true
  | TaskEvent.writeMaterialCache => true

/-- The texture paths the description declares, when read and parse succeed;
`[]` on the early-exit branches. -/
def declaredTexturePaths {Mat BindMat Tex : Type} (impl : MaterialImpl Mat BindMat Tex)
    (path : String) (ronFile : Except IOError (List Nat)) : List String :=
  match ronFile with
  | Except.ok data =>
    match impl.tryFrom path data with
    | some f => impl.load_textures f
    | none => []
  | Except.error _ => []

/-- The canonical stage order of spec §5: read, parse, per-texture resolution in
declaration order, build, bind-group construction, material-cache write. -/
def canonicalStageOrder (path : String) (texture_paths : List String) : List TaskEvent :=
  [TaskEvent.readFile path, TaskEvent.parseBytes]
    ++ texture_paths.map TaskEvent.resolveTexture
    ++ [TaskEvent.buildMaterial, TaskEvent.buildBindGroup, TaskEvent.writeMaterialCache]

/-! ## `new_material.rs`: the raw material description

`f32` values are embedded as their IEEE-754 binary32 bit patterns
(`f32::to_bits`), so float equality and `to_bits` hashing are bit-level
computations and no float arithmetic is needed (the source only carries the
values around). Rust `String`s are embedded as `List Char`. -/

/-- An `f32`, as its 32-bit pattern. -/
abbrev FP32 := Nat

/-- IEEE-754 binary32 NaN test on a bit pattern: exponent all ones and nonzero
mantissa. -/
def f32IsNan (b : FP32) : Bool :=
  decide ((b / 8388608) % 256 = 255) && decide (b % 8388608 ≠ 0)

/-- IEEE-754 binary32 zero test on a bit pattern: everything but the sign bit is
zero (`+0.0` is `0x00000000`, `-0.0` is `0x80000000`). -/
def f32IsZero (b : FP32) : Bool :=
  decide (b = 0) || decide (b = 2147483648)

/-- Rust `f32::eq` (IEEE-754 equality) on bit patterns: NaN equals nothing;
`+0.0 == -0.0`; otherwise distinct patterns denote distinct values, so equality
is pattern equality. -/
def f32Eq (a b : FP32) : Bool :=
  !f32IsNan a && !f32IsNan b && (decide (a = b) || (f32IsZero a && f32IsZero b))

/-- A `[f32; 4]`, componentwise bit patterns. -/
structure F32x4 where
  c0 : FP32
  c1 : FP32
  c2 : FP32
  c3 : FP32
deriving DecidableEq, Repr

/-- `[f32; 4]` equality: componentwise `f32::eq`. -/
def f32x4Eq (a b : F32x4) : Bool :=
  f32Eq a.c0 b.c0 && f32Eq a.c1 b.c1 && f32Eq a.c2 b.c2 && f32Eq a.c3 b.c3

/-- `Option<f32>` equality as derived for `PartialEq`. -/
def optF32Eq : Option FP32 → Option FP32 → Bool
  | none, none => true
  | some a, some b => f32Eq a b
  | _, _ => false

/-- `Option<[f32; 4]>` equality as derived for `PartialEq`. -/
def optF32x4Eq : Option F32x4 → Option F32x4 → Bool
  | none, none => true
  | some a, some b => f32x4Eq a b
  | _, _ => false

/-- `NewMaterialHandle` (new_material.rs lines 117–125): three optional texture
paths, two optional scalars, one optional color. -/
structure NewMaterialHandle where
  main_texture : Option (List Char)
  roughness_texture : Option (List Char)
  normal_texture : Option (List Char)
  roughness : Option FP32
  metallic : Option FP32
  color : Option F32x4
deriving DecidableEq, Repr

/-- The derived `PartialEq` of `NewMaterialHandle`: fieldwise, with `String`
fields compared structurally and float fields by `f32::eq` (so `0.0 == -0.0`
and `NaN != NaN`). -/
def nmhEq (a b : NewMaterialHandle) : Prop :=
  a.main_texture = b.main_texture ∧
  a.roughness_texture = b.roughness_texture ∧
  a.normal_texture = b.normal_texture ∧
  optF32Eq a.roughness b.roughness = true ∧
  optF32Eq a.metallic b.metallic = true ∧
  optF32x4Eq a.color b.color = true

instance (a b : NewMaterialHandle) : Decidable (nmhEq a b) := by
  unfold nmhEq; infer_instance

/-- One item fed to the `Hasher` state by `impl Hash for NewMaterialHandle`:
either a string's content or a `to_bits` word. Two values hash alike under
every hasher exactly when they feed the hasher the same item sequence. -/
inductive HashItem where
  | hstr (s : List Char)
  | hbits (b : FP32)
deriving DecidableEq, Repr

/-- The `Hash` implementation (new_material.rs lines 129–150): each `Some`
field contributes, in declaration order — the three texture strings, then
`roughness.to_bits`, `metallic.to_bits`, then the four `to_bits` of the color
components; `None` fields contribute nothing. -/
def hashTrace (h : NewMaterialHandle) : List HashItem :=
  (match h.main_texture with
    | some tex => [HashItem.hstr tex]
    | none => [])
  ++ (match h.roughness_texture with
    | some tex => [HashItem.hstr tex]
    | none => [])
  ++ (match h.normal_texture with
    | some tex => [HashItem.hstr tex]
    | none => [])
  ++ (match h.roughness with
    | some f => [HashItem.hbits f]
    | none => [])
  ++ (match h.metallic with
    | some f => [HashItem.hbits f]
    | none => [])
  ++ (match h.color with
    | some f => [HashItem.hbits f.c0, HashItem.hbits f.c1, HashItem.hbits f.c2, HashItem.hbits f.c3]
    | none => [])

/-- `MaterialKind` (new_material.rs lines 10–14). `From<&NewMaterialHandle>` is
not needed by the claims but `NewMaterialData` carries the kind. -/
inductive MaterialKind where
  | Unlit
  | PBR
  | NoKind
deriving DecidableEq, Repr

/-- `MaterialKind::from(&NewMaterialHandle)` (new_material.rs lines 15–30). -/
def materialKindFrom (h : NewMaterialHandle) : MaterialKind :=
  if h.main_texture.isSome && h.roughness_texture.isSome && h.normal_texture.isSome
      && h.roughness.isSome && h.metallic.isSome then
    MaterialKind.PBR
  else if h.main_texture.isSome && h.color.isSome then
    MaterialKind.Unlit
  else
    MaterialKind.NoKind

/-- A GPU image handle (`Arc<Image>`), opaque. -/
abbrev ImageRef := Nat

/-- `PBRMaterialUniform` (new_material.rs lines 216–221): two `Vec4`s, carried
as bit patterns. -/
structure PBRMaterialUniform where
  color : F32x4
  info : F32x4
deriving DecidableEq, Repr

/-- `NewMaterialData` (new_material.rs lines 32–41); the uniform buffer holds
the written `PBRMaterialUniform` when present. -/
structure NewMaterialData where
  material_kind : MaterialKind
  main_texture : Option ImageRef
  roughness_texture : Option ImageRef
  normal_texture : Option ImageRef
  roughness : Option FP32
  metallic : Option FP32
  color : Option F32x4
  uniform_buf : Option PBRMaterialUniform

/-- The bind group built by `create_bind_group`: `BindGroup::new(2, ...)` with
the uniform buffer at binding 0 and the main sampler, main view, normal view
and roughness view at bindings 1–4. -/
structure BindGroupM where
  group_index : Nat
  uniform : PBRMaterialUniform
  main_img : ImageRef
  normal_img : ImageRef
  roughness_img : ImageRef
deriving DecidableEq, Repr

/-- Outcome of `create_bind_group`: either the `unimplemented!()` fault (hit
when a texture is absent, after the uniform buffer was already written to
`self.uniform_buf`) or the constructed bind group. -/
inductive CreateBGResult where
  | unimplementedFault (uniformWritten : PBRMaterialUniform)
  | ok (uniformWritten : PBRMaterialUniform) (bg : BindGroupM)
deriving DecidableEq, Repr

/-- The bit pattern of `0.0f32`. -/
def f32ZeroBits : FP32 := 0

/-- The `PBRMaterialUniform` that `create_bind_group` writes into the uniform
buffer: `metallic`/`roughness` default to `0.0`, `color` to `vec4(0,0,0,0)`,
`info = (metallic, roughness, 0, 0)`. -/
def bgUniform (d : NewMaterialData) : PBRMaterialUniform :=
  { color := d.color.getD { c0 := f32ZeroBits, c1 := f32ZeroBits, c2 := f32ZeroBits, c3 := f32ZeroBits },
    info := { c0 := d.metallic.getD f32ZeroBits, c1 := d.roughness.getD f32ZeroBits,
              c2 := f32ZeroBits, c3 := f32ZeroBits } }

/-- `NewMaterialData::create_bind_group` (new_material.rs lines 44–115):
defaults `metallic`/`roughness` to `0.0` and `color` to `vec4(0,0,0,0)`, builds
and stores the uniform, then requires all three textures — `unimplemented!()`
on any missing one — and finally builds the bind group. -/
def create_bind_group (d : NewMaterialData) : CreateBGResult :=
  let uniform : PBRMaterialUniform := bgUniform d
  match d.main_texture with
  | none => CreateBGResult.unimplementedFault uniform
  | some main_image =>
    match d.normal_texture with
    | none => CreateBGResult.unimplementedFault uniform
    | some normal_image =>
      match d.roughness_texture with
      | none => CreateBGResult.unimplementedFault uniform
      | some roughness_image =>
        CreateBGResult.ok uniform
          { group_index := 2,
            uniform := uniform,
            main_img := main_image,
            normal_img := normal_image,
            roughness_img := roughness_image }

/-- Whether the outcome is the `unimplemented!()` fault. -/
def isFault : CreateBGResult → Bool
  | CreateBGResult.unimplementedFault _ => true
  | CreateBGResult.ok _ _ => false

/-! ## RON serialization of `NewMaterialHandle` (modelled from the spec)

The serializer/deserializer is the external `ron` crate (spec §6: the
structural parser is a collaborator). Per the spec's round-trip property, it is
modelled as a concrete textual codec for exactly the `NewMaterialHandle`
grammar the derive produces:
`NewMaterialHandle(main_texture:OPT,roughness_texture:OPT,normal_texture:OPT,roughness:OPT,metallic:OPT,color:OPT)`
with `None` / `Some("string")` / `Some(float)` / `Some((f,f,f,f))` fields.
Strings are escaped (`\` and `"`); float tokens are rendered by the
collaborator's round-tripping formatter, modelled as the decimal rendering of
the 32-bit pattern (injective and exactly invertible, the formatter's defining
property). -/

/-- Match an exact literal prefix, returning the remainder. -/
def expect : List Char → List Char → Option (List Char)
  | [], input => some input
  | _ :: _, [] => none
  | t :: ts, c :: cs => if c = t then expect ts cs else none

theorem expect_append (t rest : List Char) : expect t (t ++ rest) = some rest := by
  induction t with
  | nil => simp [expect]
  | cons c cs ih => simp [expect, ih]

/-- RON string escaping of one character. -/
def escapeChar (c : Char) : List Char :=
  if c = '\\' then ['\\', '\\'] else if c = '"' then ['\\', '"'] else [c]

/-- RON string escaping. -/
def escapeStr : List Char → List Char
  | [] => []
  | c :: cs => escapeChar c ++ escapeStr cs

/-- Scan a double-quote terminated, backslash-escaped string body; returns the
unescaped content and the remainder after the closing quote. -/
def scanStr : List Char → Option (List Char × List Char)
  | [] => none
  | c :: cs =>
    if c = '"' then some ([], cs)
    else if c = '\\' then
      match cs with
      | [] => none
      | d :: ds => (scanStr ds).map fun p => (d :: p.1, p.2)
    else (scanStr cs).map fun p => (c :: p.1, p.2)

theorem scanStr_cons (c : Char) (cs : List Char) :
    scanStr (c :: cs) =
      if c = '"' then some ([], cs)
      else if c = '\\' then
        match cs with
        | [] => none
        | d :: ds => (scanStr ds).map fun p => (d :: p.1, p.2)
      else (scanStr cs).map fun p => (c :: p.1, p.2) := by
  rw [scanStr.eq_def]

theorem scanStr_escape (s k : List Char) :
    scanStr (escapeStr s ++ ('"' :: k)) = some (s, k) := by
  induction s with
  | nil =>
    rw [show escapeStr [] ++ ('"' :: k) = '"' :: k from rfl, scanStr_cons]
    simp
  | cons c cs ih =>
    by_cases hb : c = '\\'
    · subst hb
      rw [show escapeStr ('\\' :: cs) ++ ('"' :: k)
            = '\\' :: '\\' :: (escapeStr cs ++ ('"' :: k)) by
          simp [escapeStr, escapeChar], scanStr_cons]
      simp [ih]
    · by_cases hq : c = '"'
      · subst hq
        rw [show escapeStr ('"' :: cs) ++ ('"' :: k)
              = '\\' :: '"' :: (escapeStr cs ++ ('"' :: k)) by
            simp [escapeStr, escapeChar], scanStr_cons]
        simp [ih]
      · rw [show escapeStr (c :: cs) ++ ('"' :: k)
              = c :: (escapeStr cs ++ ('"' :: k)) by
            simp [escapeStr, escapeChar, hb, hq], scanStr_cons]
        simp [hb, hq, ih]

/-- Base-10 digits of `n`, most significant first (`fuel ≥ n` suffices). -/
def natDigitsFuel : Nat → Nat → List Nat
  | 0, _ => []
  | fuel + 1, n => if n = 0 then [] else natDigitsFuel fuel (n / 10) ++ [n % 10]

/-- Base-10 digits of `n`, most significant first; empty for `0`. -/
def natDigits (n : Nat) : List Nat := natDigitsFuel n n

/-- Value of a most-significant-first digit list. -/
def ofDigits (l : List Nat) : Nat := l.foldl (fun a d => 10 * a + d) 0

theorem ofDigits_concat (l : List Nat) (d : Nat) :
    ofDigits (l ++ [d]) = 10 * ofDigits l + d := by
  simp [ofDigits, List.foldl_append]

theorem ofDigits_natDigitsFuel : ∀ fuel n, n ≤ fuel →
    ofDigits (natDigitsFuel fuel n) = n := by
  intro fuel
  induction fuel with
  | zero =>
    intro n hn
    interval_cases n
    simp [natDigitsFuel, ofDigits]
  | succ fuel ih =>
    intro n hn
    by_cases h0 : n = 0
    · subst h0; simp [natDigitsFuel, ofDigits]
    · have hdiv : n / 10 < n := Nat.div_lt_self (Nat.pos_of_ne_zero h0) (by norm_num)
      have hle : n / 10 ≤ fuel := by omega
      simp only [natDigitsFuel, h0, if_false, ofDigits_concat, ih (n / 10) hle]
      omega

theorem natDigitsFuel_lt : ∀ fuel n d, d ∈ natDigitsFuel fuel n → d < 10 := by
  intro fuel
  induction fuel with
  | zero => intro n d hd; simp [natDigitsFuel] at hd
  | succ fuel ih =>
    intro n d hd
    by_cases h0 : n = 0
    · subst h0; simp [natDigitsFuel] at hd
    · simp only [natDigitsFuel, h0, if_false, List.mem_append, List.mem_singleton] at hd
      rcases hd with hd | hd
      · exact ih _ _ hd
      · subst hd; exact Nat.mod_lt _ (by norm_num)

theorem natDigitsFuel_ne_nil (fuel n : Nat) (h0 : n ≠ 0) (hle : n ≤ fuel) :
    natDigitsFuel fuel n ≠ [] := by
  cases fuel with
  | zero => omega
  | succ fuel => simp [natDigitsFuel, h0]

/-- The digit characters of `n` (the collaborator's float-token rendering,
applied to the 32-bit pattern). -/
def natDigitChars (n : Nat) : List Char :=
  if n = 0 then ['0'] else (natDigits n).map Nat.digitChar

/-- Numeric value of a digit character. -/
def charVal (c : Char) : Nat := c.toNat - 48

theorem digitChar_isDigit (d : Nat) (h : d < 10) :
    (Nat.digitChar d).isDigit = true ∧ charVal (Nat.digitChar d) = d := by
  interval_cases d <;> exact ⟨by decide, by decide⟩

/-- Longest digit prefix and the remainder. -/
def takeDigits : List Char → List Char × List Char
  | [] => ([], [])
  | c :: cs =>
    if c.isDigit then
      ((takeDigits cs).1.cons c, (takeDigits cs).2)
    else ([], c :: cs)

theorem takeDigits_append (ds : List Char) (c : Char) (rest : List Char)
    (h1 : ∀ x ∈ ds, x.isDigit = true) (h2 : c.isDigit = false) :
    takeDigits (ds ++ c :: rest) = (ds, c :: rest) := by
  induction ds with
  | nil => simp [takeDigits, h2]
  | cons d ds ih =>
    have hd : d.isDigit = true := h1 d (List.mem_cons_self d ds)
    have hds : ∀ x ∈ ds, x.isDigit = true := fun x hx => h1 x (List.mem_cons_of_mem d hx)
    simp [takeDigits, hd, ih hds]

/-- Scan a nonempty digit run as a number. -/
def scanNum (input : List Char) : Option (Nat × List Char) :=
  match takeDigits input with
  | ([], _) => none
  | (d :: ds, rest) => some (ofDigits ((d :: ds).map charVal), rest)

theorem map_charVal_digitChar (l : List Nat) (h : ∀ d ∈ l, d < 10) :
    (l.map Nat.digitChar).map charVal = l := by
  induction l with
  | nil => simp
  | cons d ds ih =>
    have hd := (digitChar_isDigit d (h d (List.mem_cons_self d ds))).2
    have hds : ∀ x ∈ ds, x < 10 := fun x hx => h x (List.mem_cons_of_mem d hx)
    simp [hd, ih hds]

theorem scanNum_digits (n : Nat) (c : Char) (rest : List Char)
    (hc : c.isDigit = false) :
    scanNum (natDigitChars n ++ c :: rest) = some (n, c :: rest) := by
  by_cases h0 : n = 0
  · subst h0
    have htd : takeDigits (['0'] ++ c :: rest) = (['0'], c :: rest) :=
      takeDigits_append ['0'] c rest (by intro x hx; simp at hx; subst hx; decide) hc
    simp only [List.cons_append, List.nil_append] at htd
    simp [natDigitChars, scanNum, htd, ofDigits, charVal]
  · have hlt : ∀ d ∈ natDigits n, d < 10 := fun d hd => natDigitsFuel_lt n n d hd
    have hdig : ∀ x ∈ (natDigits n).map Nat.digitChar, x.isDigit = true := by
      intro x hx
      rcases List.mem_map.mp hx with ⟨d, hd, hdx⟩
      subst hdx
      exact (digitChar_isDigit d (hlt d hd)).1
    have htd := takeDigits_append ((natDigits n).map Nat.digitChar) c rest hdig hc
    have hne : (natDigits n).map Nat.digitChar ≠ [] := by
      intro hcon
      exact natDigitsFuel_ne_nil n n h0 (Nat.le_refl n) (List.map_eq_nil_iff.mp hcon)
    rcases hchars : (natDigits n).map Nat.digitChar with _ | ⟨d, ds⟩
    · exact absurd hchars hne
    · rw [hchars] at htd
      simp only [List.cons_append] at htd
      have hval : ofDigits ((d :: ds).map charVal) = n := by
        rw [← hchars, map_charVal_digitChar (natDigits n) hlt]
        exact ofDigits_natDigitsFuel n n (Nat.le_refl n)
      simp only [List.map_cons] at hval
      simp [natDigitChars, h0, scanNum, hchars, htd, hval]

theorem expect_cons (t : Char) (ts : List Char) (c : Char) (cs : List Char) :
    expect (t :: ts) (c :: cs) = if c = t then expect ts cs else none := by
  rw [expect.eq_def]

/-! Tokens of the RON grammar for this struct. -/

def tokNone : List Char := ['N', 'o', 'n', 'e']
def tokSome : List Char := ['S', 'o', 'm', 'e', '(']
def tokSomeQ : List Char := ['S', 'o', 'm', 'e', '(', '"']
def tokSomeP : List Char := ['S', 'o', 'm', 'e', '(', '(']
def tokComma : List Char := [',']
def tokClose : List Char := [')']
def tokClose2 : List Char := [')', ')']

/-- Serialize an `Option<String>` field. -/
def serOptStr : Option (List Char) → List Char
  | none => tokNone
  | some s => tokSomeQ ++ (escapeStr s ++ ('"' :: tokClose))

/-- Parse an `Option<String>` field. -/
def scanOptStr (input : List Char) : Option (Option (List Char) × List Char) :=
  match expect tokNone input with
  | some rest => some (none, rest)
  | none =>
    match expect tokSomeQ input with
    | none => none
    | some r1 =>
      match scanStr r1 with
      | none => none
      | some (s, r2) =>
        match expect tokClose r2 with
        | none => none
        | some r3 => some (some s, r3)

theorem scanOptStr_ser (o : Option (List Char)) (rest : List Char) :
    scanOptStr (serOptStr o ++ rest) = some (o, rest) := by
  cases o with
  | none => simp [serOptStr, scanOptStr, expect_append]
  | some s =>
    have hnone : expect tokNone (serOptStr (some s) ++ rest) = none := by
      simp [serOptStr, tokSomeQ, tokNone, expect_cons]
    have hsome : expect tokSomeQ (serOptStr (some s) ++ rest)
        = some (escapeStr s ++ ('"' :: (')' :: rest))) := by
      simp only [serOptStr, List.append_assoc, List.cons_append, tokClose,
        List.singleton_append]
      exact expect_append tokSomeQ _
    have hstr := scanStr_escape s (')' :: rest)
    simp [scanOptStr, hnone, hsome, hstr, tokClose, expect_cons, expect]

/-- Serialize an `Option<f32>` field. -/
def serOptNum : Option Nat → List Char
  | none => tokNone
  | some b => tokSome ++ (natDigitChars b ++ tokClose)

/-- Parse an `Option<f32>` field. -/
def scanOptNum (input : List Char) : Option (Option Nat × List Char) :=
  match expect tokNone input with
  | some rest => some (none, rest)
  | none =>
    match expect tokSome input with
    | none => none
    | some r1 =>
      match scanNum r1 with
      | none => none
      | some (v, r2) =>
        match expect tokClose r2 with
        | none => none
        | some r3 => some (some v, r3)

theorem scanOptNum_ser (o : Option Nat) (rest : List Char) :
    scanOptNum (serOptNum o ++ rest) = some (o, rest) := by
  cases o with
  | none => simp [serOptNum, scanOptNum, expect_append]
  | some b =>
    have hnone : expect tokNone (serOptNum (some b) ++ rest) = none := by
      simp [serOptNum, tokSome, tokNone, expect_cons]
    have hsome : expect tokSome (serOptNum (some b) ++ rest)
        = some (natDigitChars b ++ (')' :: rest)) := by
      simp only [serOptNum, List.append_assoc, tokClose, List.singleton_append]
      exact expect_append tokSome _
    have hnum := scanNum_digits b ')' rest (by decide)
    simp [scanOptNum, hnone, hsome, hnum, tokClose, expect_cons, expect]

/-- Serialize an `Option<[f32; 4]>` field. -/
def serOptV4 : Option F32x4 → List Char
  | none => tokNone
  | some v => tokSomeP ++ (natDigitChars v.c0 ++ (tokComma ++ (natDigitChars v.c1
      ++ (tokComma ++ (natDigitChars v.c2 ++ (tokComma ++ (natDigitChars v.c3
      ++ tokClose2)))))))

/-- Parse an `Option<[f32; 4]>` field. -/
def scanOptV4 (input : List Char) : Option (Option F32x4 × List Char) :=
  match expect tokNone input with
  | some rest => some (none, rest)
  | none =>
    match expect tokSomeP input with
    | none => none
    | some r1 =>
      match scanNum r1 with
      | none => none
      | some (a, r2) =>
        match expect tokComma r2 with
        | none => none
        | some r3 =>
          match scanNum r3 with
          | none => none
          | some (b, r4) =>
            match expect tokComma r4 with
            | none => none
            | some r5 =>
              match scanNum r5 with
              | none => none
              | some (c, r6) =>
                match expect tokComma r6 with
                | none => none
                | some r7 =>
                  match scanNum r7 with
                  | none => none
                  | some (d, r8) =>
                    match expect tokClose2 r8 with
                    | none => none
                    | some r9 =>
                      some (some { c0 := a, c1 := b, c2 := c, c3 := d }, r9)

theorem scanOptV4_ser (o : Option F32x4) (rest : List Char) :
    scanOptV4 (serOptV4 o ++ rest) = some (o, rest) := by
  cases o with
  | none => simp [serOptV4, scanOptV4, expect_append]
  | some v =>
    have hnone : expect tokNone (serOptV4 (some v) ++ rest) = none := by
      simp [serOptV4, tokSomeP, tokNone, expect_cons]
    have hsome : expect tokSomeP (serOptV4 (some v) ++ rest)
        = some (natDigitChars v.c0 ++ (',' :: (natDigitChars v.c1
            ++ (',' :: (natDigitChars v.c2 ++ (',' :: (natDigitChars v.c3
            ++ (')' :: (')' :: rest))))))))) := by
      simp only [serOptV4, List.append_assoc, tokComma, tokClose2,
        List.singleton_append, List.cons_append, List.nil_append]
      exact expect_append tokSomeP _
    have h0 := scanNum_digits v.c0 ',' (natDigitChars v.c1
      ++ (',' :: (natDigitChars v.c2 ++ (',' :: (natDigitChars v.c3
      ++ (')' :: (')' :: rest))))))) (by decide)
    have h1 := scanNum_digits v.c1 ',' (natDigitChars v.c2 ++ (',' :: (natDigitChars v.c3
      ++ (')' :: (')' :: rest))))) (by decide)
    have h2 := scanNum_digits v.c2 ',' (natDigitChars v.c3
      ++ (')' :: (')' :: rest))) (by decide)
    have h3 := scanNum_digits v.c3 ')' (')' :: rest) (by decide)
    simp [scanOptV4, hnone, hsome, h0, h1, h2, h3, tokComma, tokClose2,
      expect_cons, expect]

/-! The field headers of the derived RON form of `NewMaterialHandle`. -/

def hdrMain : List Char :=
  ['N', 'e', 'w', 'M', 'a', 't', 'e', 'r', 'i', 'a', 'l', 'H', 'a', 'n', 'd', 'l', 'e',
   '(', 'm', 'a', 'i', 'n', '_', 't', 'e', 'x', 't', 'u', 'r', 'e', ':']
def hdrRoughTex : List Char :=
  [',', 'r', 'o', 'u', 'g', 'h', 'n', 'e', 's', 's', '_', 't', 'e', 'x', 't', 'u', 'r', 'e', ':']
def hdrNormTex : List Char :=
  [',', 'n', 'o', 'r', 'm', 'a', 'l', '_', 't', 'e', 'x', 't', 'u', 'r', 'e', ':']
def hdrRough : List Char :=
  [',', 'r', 'o', 'u', 'g', 'h', 'n', 'e', 's', 's', ':']
def hdrMetal : List Char :=
  [',', 'm', 'e', 't', 'a', 'l', 'l', 'i', 'c', ':']
def hdrColor : List Char :=
  [',', 'c', 'o', 'l', 'o', 'r', ':']

/-- Modelled from the spec: RON serialization of a `NewMaterialHandle` (the
derive-produced struct form, one field per declaration in order). -/
def serializeNMH (h : NewMaterialHandle) : List Char :=
  hdrMain ++ (serOptStr h.main_texture
    ++ (hdrRoughTex ++ (serOptStr h.roughness_texture
      ++ (hdrNormTex ++ (serOptStr h.normal_texture
        ++ (hdrRough ++ (serOptNum h.roughness
          ++ (hdrMetal ++ (serOptNum h.metallic
            ++ (hdrColor ++ (serOptV4 h.color ++ tokClose)))))))))))

/-- Modelled from the spec: RON parsing of a `NewMaterialHandle`; `none` on any
structural mismatch (mapped to `InvalidData` by the pipeline). -/
def parseNMH (input : List Char) : Option NewMaterialHandle :=
  match expect hdrMain input with
  | none => none
  | some r1 =>
    match scanOptStr r1 with
    | none => none
    | some (mt, r2) =>
      match expect hdrRoughTex r2 with
      | none => none
      | some r3 =>
        match scanOptStr r3 with
        | none => none
        | some (rt, r4) =>
          match expect hdrNormTex r4 with
          | none => none
          | some r5 =>
            match scanOptStr r5 with
            | none => none
            | some (nt, r6) =>
              match expect hdrRough r6 with
              | none => none
              | some r7 =>
                match scanOptNum r7 with
                | none => none
                | some (ro, r8) =>
                  match expect hdrMetal r8 with
                  | none => none
                  | some r9 =>
                    match scanOptNum r9 with
                    | none => none
                    | some (me, r10) =>
                      match expect hdrColor r10 with
                      | none => none
                      | some r11 =>
                        match scanOptV4 r11 with
                        | none => none
                        | some (co, r12) =>
                          match expect tokClose r12 with
                          | none => none
                          | some r13 =>
                            match r13 with
                            | [] => some ⟨mt, rt, nt, ro, me, co⟩
                            | _ :: _ => none

theorem parseNMH_serializeNMH (h : NewMaterialHandle) :
    parseNMH (serializeNMH h) = some h := by
  have hclose : expect tokClose tokClose = some ([] : List Char) := by
    simpa using expect_append tokClose []
  simp [parseNMH, serializeNMH, expect_append, scanOptStr_ser, scanOptNum_ser,
    scanOptV4_ser, hclose]

/-! ## Helper lemmas for the claim theorems -/

/-- Whether an event is the material-cache insert. -/
def isMatWrite : TaskEvent → Bool
  | TaskEvent.readFile _ => false
  | TaskEvent.parseBytes => false
  | TaskEvent.writeRonCache => false
  | TaskEvent.resolveTexture _ => false
  | TaskEvent.buildMaterial => false
  | TaskEvent.buildBindGroup => false
  | TaskEvent.writeMaterialCache => true

theorem filter_listedStage_map (tps : List String) :
    (tps.map TaskEvent.resolveTexture).filter listedStage
      = tps.map TaskEvent.resolveTexture := by
  induction tps with
  | nil => rfl
  | cons p ps ih => simp [listedStage, ih]

theorem countP_isMatWrite_map (tps : List String) :
    List.countP isMatWrite (tps.map TaskEvent.resolveTexture) = 0 := by
  induction tps with
  | nil => rfl
  | cons p ps ih => simp [List.countP_cons, isMatWrite, ih]

theorem f32Eq_self (b : FP32) : f32Eq b b = !f32IsNan b := by
  simp [f32Eq]

/-- No present float field of the handle is a NaN pattern. -/
def noNanFloats (h : NewMaterialHandle) : Bool :=
  h.roughness.all (fun b => !f32IsNan b)
    && h.metallic.all (fun b => !f32IsNan b)
    && h.color.all (fun v =>
        !f32IsNan v.c0 && !f32IsNan v.c1 && !f32IsNan v.c2 && !f32IsNan v.c3)

theorem getLast?_append_concat {α : Type} (l1 l2 : List α) (b : α) :
    (l1 ++ (l2 ++ [b])).getLast? = some b := by
  rw [List.getLast?_append, List.getLast?_append]
  rfl

/-! ## Claim theorems -/

/-- Claim C1 (evaluation of the code at the failing input): starting from a
cold manager (empty caches), two successive `get` calls for the same path each
spawn a resolution task — the duplicate-spawn race flagged in spec §9. The
second call sees no material-cache entry (the first task has not yet written
one) and spawns again, so two file reads and two texture resolutions occur,
contradicting the claim's dedup property. -/
theorem double_get_cold_cache_spawns_twice :
    ((materialManagerGet (materialManagerGet (emptyMgrState Nat) "a.ron").1 "a.ron").1).spawned_loads
      = ["a.ron", "a.ron"] := by
  rfl

/-- Claim C2 (evaluation of the code at the failing input): the identifier
`MaterialManager::insert` generates is the same fixed string on every call —
`Builder::nil().set_version(Random)` never randomizes any byte — so two
successive `insert` calls return handles with equal identifiers, and that
identifier is the nil uuid with version nibble 4. -/
theorem insert_identifier_constant :
    (materialManagerInsert (materialManagerInsert (emptyMgrState Nat)).1).2.handle_id
        = (materialManagerInsert (emptyMgrState Nat)).2.handle_id
      ∧ insertGeneratedId = "00000000-0000-4000-0000-000000000000" := by
  exact ⟨rfl, by rfl⟩

/-- Claim C3: polling a handle freshly created by `get` or by `insert`, before
any worker task has written a cache entry for its identifier, yields `Pending`
— not a failure value and not a stale or default material (the handle
construction itself writes nothing into the material cache). -/
theorem fresh_handle_polls_pending {V : Type} (s : MgrState V) (path : String)
    (hload : lookupA s.material_cache path = none)
    (hins : lookupA s.material_cache insertGeneratedId = none) :
    pollHandle (materialManagerGet s path).2 (materialManagerGet s path).1.material_cache
        = HandleState.Pending
      ∧ pollHandle (materialManagerInsert s).2 (materialManagerInsert s).1.material_cache
        = HandleState.Pending := by
  constructor
  · have hc : containsA s.material_cache path = false := by
      simp [containsA, hload]
    simp [materialManagerGet, hc, pollHandle, hload]
  · simp [materialManagerInsert, pollHandle, hins]

/-- Witness for C3 at a concrete cold state. -/
theorem fresh_handle_polls_pending_witness :
    pollHandle (materialManagerGet (emptyMgrState Nat) "m.ron").2
        (materialManagerGet (emptyMgrState Nat) "m.ron").1.material_cache
        = HandleState.Pending
      ∧ pollHandle (materialManagerInsert (emptyMgrState Nat)).2
        (materialManagerInsert (emptyMgrState Nat)).1.material_cache
        = HandleState.Pending :=
  fresh_handle_polls_pending (emptyMgrState Nat) "m.ron" rfl rfl

/-- Claim C4: when the file read of a `get`-spawned task fails, the task stores
exactly one failure in the material cache — `FileNotFound` for the not-found
kind, `OtherError` carrying the underlying I/O error for every other kind —
writes nothing to the description cache, and performs no parse, no texture
resolution and no builds: its whole trace is the read and the single
material-cache write. -/
theorem get_task_read_failure {Mat BindMat Tex : Type}
    (impl : MaterialImpl Mat BindMat Tex) (path : String) (e : IOError) :
    (runGetTask impl path (Except.error e)).result
        = Except.error (if e.kind = IOErrorKind.notFound then AssetError.FileNotFound
            else AssetError.OtherError e)
      ∧ (runGetTask impl path (Except.error e)).ronWrite = none
      ∧ (runGetTask impl path (Except.error e)).events
        = [TaskEvent.readFile path, TaskEvent.writeMaterialCache] := by
  refine ⟨?_, rfl, rfl⟩
  obtain ⟨k, payload⟩ := e
  cases k with
  | notFound => simp [runGetTask]
  | otherKind c => simp [runGetTask]

/-- Claim C5: when the bytes are read but `T::try_from` fails, the task stores
an `InvalidData` failure into both the description cache and the material
cache, and performs no texture resolution, no material build and no bind-group
construction. -/
theorem get_task_parse_failure {Mat BindMat Tex : Type}
    (impl : MaterialImpl Mat BindMat Tex) (path : String) (data : List Nat)
    (hparse : impl.tryFrom path data = none) :
    (runGetTask impl path (Except.ok data)).ronWrite
        = some (Except.error AssetError.InvalidData)
      ∧ (runGetTask impl path (Except.ok data)).result = Except.error AssetError.InvalidData
      ∧ (runGetTask impl path (Except.ok data)).events
        = [TaskEvent.readFile path, TaskEvent.parseBytes, TaskEvent.writeRonCache,
           TaskEvent.writeMaterialCache] := by
  simp [runGetTask, hparse]

/-- A concrete `MaterialImpl` whose parse always fails. -/
def alwaysInvalidImpl : MaterialImpl Nat Nat Nat :=
  { tryFrom := fun _ _ => none, load_textures := fun _ => [],
    create_material := fun _ _ => 0, resolveTexture := fun _ => 0,
    create_bindgroup := fun m => m }

/-- Witness for C5 at a concrete parse failure. -/
theorem get_task_parse_failure_witness :
    alwaysInvalidImpl.tryFrom "m.ron" [0] = none
      ∧ (runGetTask alwaysInvalidImpl "m.ron" (Except.ok [0])).result
        = Except.error AssetError.InvalidData :=
  ⟨rfl, (get_task_parse_failure alwaysInvalidImpl "m.ron" [0] rfl).2.1⟩

/-- Claim C6: the task spawned by `insert` performs no file read and no parse,
has no failure branch — it stores the in-memory description as a success in
the description cache and always stores a success (the built material) in the
material cache under the generated identifier — so once its material-cache
write lands, the handle for that identifier polls `Ready`. -/
theorem insert_task_no_io_always_succeeds {Mat BindMat Tex : Type}
    (impl : MaterialImpl Mat BindMat Tex) (material : Mat)
    (cache : List (String × Except AssetError BindMat)) (id : String) :
    (∀ p, TaskEvent.readFile p ∉ (runInsertTask impl material).events)
      ∧ TaskEvent.parseBytes ∉ (runInsertTask impl material).events
      ∧ (runInsertTask impl material).ronWrite = some (Except.ok material)
      ∧ (runInsertTask impl material).result
        = Except.ok (impl.create_material material
            ((impl.load_textures material).map impl.resolveTexture))
      ∧ pollHandle { handle_id := id }
          (insertA cache id (runInsertTask impl material).result)
        = HandleState.Ready (impl.create_material material
            ((impl.load_textures material).map impl.resolveTexture)) := by
  refine ⟨?_, ?_, rfl, rfl, ?_⟩
  · intro p
    simp [runInsertTask]
  · simp [runInsertTask]
  · simp [pollHandle, runInsertTask]

/-- Claim C7: within one `get`-spawned resolution task, the named stages occur
(when they occur at all) strictly in the order read, parse, per-texture
resolution in declaration order, material build, bind-group construction,
material-cache write; the material-cache write happens exactly once and is the
final event of the task, so it is the single commit point — a handle observes
either no entry or the fully built final value/error. -/
theorem get_task_stage_order {Mat BindMat Tex : Type}
    (impl : MaterialImpl Mat BindMat Tex) (path : String)
    (ronFile : Except IOError (List Nat)) :
    List.Sublist (((runGetTask impl path ronFile).events).filter listedStage)
        (canonicalStageOrder path (declaredTexturePaths impl path ronFile))
      ∧ List.countP isMatWrite ((runGetTask impl path ronFile).events) = 1
      ∧ ((runGetTask impl path ronFile).events).getLast?
        = some TaskEvent.writeMaterialCache := by
  cases ronFile with
  | error e =>
    have hev : (runGetTask impl path (Except.error e)).events
        = [TaskEvent.readFile path] ++ [TaskEvent.writeMaterialCache] := rfl
    refine ⟨?_, ?_, ?_⟩
    · rw [hev]
      simp [canonicalStageOrder, declaredTexturePaths, listedStage,
        List.cons_sublist_cons, List.singleton_sublist]
    · rw [hev]
      simp [List.countP_cons, isMatWrite]
    · rw [hev]
      exact List.getLast?_concat _
  | ok data =>
    rcases hp : impl.tryFrom path data with _ | f
    · have hev : (runGetTask impl path (Except.ok data)).events
          = [TaskEvent.readFile path, TaskEvent.parseBytes, TaskEvent.writeRonCache]
            ++ [TaskEvent.writeMaterialCache] := by
        simp [runGetTask, hp]
      refine ⟨?_, ?_, ?_⟩
      · rw [hev]
        simp [canonicalStageOrder, declaredTexturePaths, hp, listedStage,
          List.cons_sublist_cons, List.singleton_sublist]
      · rw [hev]
        simp [List.countP_cons, isMatWrite]
      · rw [hev]
        exact List.getLast?_concat _
    · have hev : (runGetTask impl path (Except.ok data)).events
          = [TaskEvent.readFile path, TaskEvent.parseBytes, TaskEvent.writeRonCache]
            ++ (impl.load_textures f).map TaskEvent.resolveTexture
            ++ [TaskEvent.buildMaterial, TaskEvent.buildBindGroup]
            ++ [TaskEvent.writeMaterialCache] := by
        simp [runGetTask, hp]
      refine ⟨?_, ?_, ?_⟩
      · rw [hev]
        have hfil : (([TaskEvent.readFile path, TaskEvent.parseBytes, TaskEvent.writeRonCache]
              ++ (impl.load_textures f).map TaskEvent.resolveTexture
              ++ [TaskEvent.buildMaterial, TaskEvent.buildBindGroup]
              ++ [TaskEvent.writeMaterialCache]).filter listedStage)
            = canonicalStageOrder path (declaredTexturePaths impl path (Except.ok data)) := by
          simp [canonicalStageOrder, declaredTexturePaths, hp, listedStage,
            List.filter_append, filter_listedStage_map]
        rw [hfil]
      · rw [hev]
        simp [List.countP_append, List.countP_cons, isMatWrite, countP_isMatWrite_map]
      · rw [hev]
        exact List.getLast?_concat _

/-- A handle whose only present float field is a NaN pattern (`0x7FC00000`). -/
def nanHandle : NewMaterialHandle :=
  { main_texture := none, roughness_texture := none, normal_texture := none,
    roughness := some 2143289344, metallic := none, color := none }

/-- Counterexample to claim C8 as stated: for the handle whose `roughness` is
`Some(NaN)`, serialize-then-parse returns the bit-identical value, yet that
value is not equal to the original — the derived `PartialEq` compares floats
with `f32::eq`, under which `NaN != NaN` — so the round trip does not yield an
equal value for every combination of present fields. -/
theorem ron_round_trip_fails_at_nan :
    parseNMH (serializeNMH nanHandle) = some nanHandle ∧ ¬ nmhEq nanHandle nanHandle :=
  ⟨parseNMH_serializeNMH nanHandle, by decide⟩

/-- Claim C8 (amended): serializing a `NewMaterialHandle` and parsing the
result back always yields exactly the original value (bit-for-bit, for all
combinations of present and absent optional fields); the parsed value is
*equal* to the original (derived `PartialEq`) precisely when no present float
field is NaN. -/
theorem ron_round_trip (h : NewMaterialHandle) :
    parseNMH (serializeNMH h) = some h ∧ (nmhEq h h ↔ noNanFloats h = true) := by
  refine ⟨parseNMH_serializeNMH h, ?_⟩
  unfold nmhEq noNanFloats
  cases hr : h.roughness <;> cases hm : h.metallic <;> cases hc : h.color <;>
    simp [optF32Eq, optF32x4Eq, f32x4Eq, f32Eq_self, Option.all] <;> tauto

/-- Claim C9: `create_bind_group` hits the `unimplemented!()` fault exactly
when one of the main, normal or roughness textures is absent (it substitutes no
default/white texture and returns no error value), and with all three present
it returns the bind group at group index 2 binding the uniform and those three
images. -/
theorem create_bind_group_requires_textures (d : NewMaterialData) :
    isFault (create_bind_group d)
        = (d.main_texture.isNone || d.normal_texture.isNone || d.roughness_texture.isNone)
      ∧ (∀ mi ni ri, d.main_texture = some mi → d.normal_texture = some ni →
          d.roughness_texture = some ri →
          create_bind_group d = CreateBGResult.ok (bgUniform d)
            { group_index := 2, uniform := bgUniform d, main_img := mi,
              normal_img := ni, roughness_img := ri }) := by
  constructor
  · cases hm : d.main_texture <;> cases hn : d.normal_texture <;>
      cases hr : d.roughness_texture <;> simp [create_bind_group, isFault, hm, hn, hr]
  · intro mi ni ri hm hn hr
    simp [create_bind_group, hm, hn, hr]

/-- A fully populated `NewMaterialData`. -/
def fullMaterialData : NewMaterialData :=
  { material_kind := MaterialKind.PBR, main_texture := some 1,
    roughness_texture := some 3, normal_texture := some 2,
    roughness := some 1065353216, metallic := some 0, color := none,
    uniform_buf := none }

/-- Witness for C9: with all three textures present, the bind group is built. -/
theorem create_bind_group_requires_textures_witness :
    fullMaterialData.main_texture = some 1
      ∧ create_bind_group fullMaterialData = CreateBGResult.ok (bgUniform fullMaterialData)
        { group_index := 2, uniform := bgUniform fullMaterialData, main_img := 1,
          normal_img := 2, roughness_img := 3 } :=
  ⟨rfl, (create_bind_group_requires_textures fullMaterialData).2 1 2 3 rfl rfl rfl⟩

/-- The handle whose `roughness` is positive zero (`0x00000000`). -/
def posZeroHandle : NewMaterialHandle :=
  { main_texture := none, roughness_texture := none, normal_texture := none,
    roughness := some 0, metallic := none, color := none }

/-- The handle whose `roughness` is negative zero (`0x80000000`). -/
def negZeroHandle : NewMaterialHandle :=
  { main_texture := none, roughness_texture := none, normal_texture := none,
    roughness := some 2147483648, metallic := none, color := none }

/-- Counterexample to claim C10 as stated: the handles with `roughness` equal
to `0.0` and `-0.0` are equal under the derived `PartialEq` (`0.0 == -0.0`),
but feed different words to the hasher (`to_bits` distinguishes the sign bit),
so the `Hash` implementation is not consistent with equality. -/
theorem hash_breaks_eq_at_signed_zero :
    nmhEq posZeroHandle negZeroHandle ∧ hashTrace posZeroHandle ≠ hashTrace negZeroHandle :=
  ⟨by decide, by decide⟩

/-- Claim C10 (amended): the hash stream is determined by the fields with
floats read as bit patterns — whenever `a == b` holds *and* the float fields
agree bitwise (which `0.0` / `-0.0` violate), `a` and `b` feed the hasher the
identical item sequence and therefore hash alike under every hasher. -/
theorem hash_consistent_on_bitwise_floats (a b : NewMaterialHandle)
    (heq : nmhEq a b) (hro : a.roughness = b.roughness)
    (hme : a.metallic = b.metallic) (hco : a.color = b.color) :
    hashTrace a = hashTrace b := by
  obtain ⟨h1, h2, h3, -, -, -⟩ := heq
  unfold hashTrace
  rw [h1, h2, h3, hro, hme, hco]

/-- A handle with a string field and a non-NaN, nonzero float field. -/
def plainHandle : NewMaterialHandle :=
  { main_texture := some ['m'], roughness_texture := none, normal_texture := none,
    roughness := some 1065353216, metallic := none, color := none }

/-- Witness for the amended C10 at a concrete handle. -/
theorem hash_consistent_on_bitwise_floats_witness :
    nmhEq plainHandle plainHandle ∧ hashTrace plainHandle = hashTrace plainHandle :=
  ⟨by decide, hash_consistent_on_bitwise_floats plainHandle plainHandle (by decide) rfl rfl rfl⟩
